import Mathlib

/-!
Verification of the crypto-arbitrage bot (`src/app.py`).

The development shallowly embeds the pure decision logic of the bot:

* expiry management (`ExpiryManager`): `get_initial_active_expiry`,
  `should_rollover_expiry`, `get_next_available_expiry`;
* the quote refresh (`LiveMarketData.fetch_live_market_data`), with the
  HTTP transport abstracted as an explicit fetch outcome;
* the spread scanner (`UltraFastArbitrageEngine`): `check_call_arbitrage`,
  `check_put_arbitrage`, `find_arbitrage_opportunities`;
* the order executor (`UltraFastOrderExecutor`): the paper-trading sell
  fill, the buy-leg price escalation, and `execute_arbitrage_trade`.

Python floats (option premia, configured thresholds) are embedded as
rationals; Python ints as `Int`; Python dicts as association lists or
explicit lookup functions together with their key lists.  Randomness
(`random.choices`) is embedded by passing the drawn branch explicitly, so
every theorem quantifies over all possible draws.
-/

/-! ### Expiry management (`ExpiryManager`) -/

/-- Embedding of `ExpiryManager.get_initial_active_expiry`.  The source
computes IST local time (`utc + 5:30`) and tests
`ist_now.hour >= 17 and ist_now.minute >= 30`; on success it returns
tomorrow's `DDMMYY` code (`(ist_now + 1 day).strftime`), otherwise today's
code (`self.current_expiry`).  The `strftime` date formatting is abstracted
into the `today_code` / `tomorrow_code` parameters; the branch condition is
the source's. -/
def get_initial_active_expiry (hour minute : Nat) (today_code tomorrow_code : String) : String :=
  if 17 ≤ hour ∧ 30 ≤ minute then tomorrow_code else today_code

/-- Embedding of `ExpiryManager.should_rollover_expiry`: returns the next
day's code when `ist_now.hour >= 17 and ist_now.minute >= 30`, else `None`.
As above, the date formatting is abstracted into `tomorrow_code`. -/
def should_rollover_expiry (hour minute : Nat) (tomorrow_code : String) : Option String :=
  if 17 ≤ hour ∧ 30 ≤ minute then some tomorrow_code else none

/-- Embedding of `ExpiryManager.get_next_available_expiry`.  The source
fetches `available_expiries = self.get_available_expiries(asset)` (always a
`sorted(set(...))`, i.e. a strictly increasing list) and then:
if the list is empty, returns `current_expiry`; otherwise returns the first
element lexicographically greater than `current_expiry`
(`for expiry in available_expiries: if expiry > current_expiry: return expiry`),
falling back to `available_expiries[-1]`.  The network fetch is abstracted
into the `available_expiries` parameter. -/
def get_next_available_expiry (current_expiry : String) (available_expiries : List String) :
    String :=
  if available_expiries.isEmpty then current_expiry
  else
    match available_expiries.find? (fun expiry => decide (current_expiry < expiry)) with
    | some expiry => expiry
    | none => available_expiries.getLastD current_expiry

/-! ### Live market data (`LiveMarketData.fetch_live_market_data`) -/

/-- One option quote as stored in the `market_data` dict of
`fetch_live_market_data`: `{'symbol': ..., 'bid': ..., 'ask': ..., 'qty': 50}`. -/
structure Quote where
  symbol : String
  bid : ℚ
  ask : ℚ
  qty : Int
  deriving DecidableEq

/-- A quote snapshot: the Python dict `symbol -> quote` embedded as an
association list in insertion order. -/
abbrev MarketSnapshot : Type := List (String × Quote)

/-- Outcome of the `/v2/products` HTTP request in `fetch_live_market_data`:
either the `requests` call (or JSON decoding) raised — caught by the
enclosing `try`/`except` — or a response with a status code and a list of
product symbols parsed from the payload. -/
inductive ProductsFetch where
  | exc
  | resp (status : Nat) (products : List String)
  deriving DecidableEq

/-- Embedding of Python's `sub in s` substring test on strings. -/
def str_contains (s sub : String) : Bool :=
  s.data.tails.any (fun t => sub.data.isPrefixOf t)

/-- Embedding of `LiveMarketData.fetch_live_market_data` for one asset.

* `too_soon` is the rate-limit test `current_time - self.last_data_fetch <
  self.data_fetch_interval`: when true the cached snapshot is returned.
* `cache` is the per-asset cache (`self.eth_prices` / `self.btc_prices`).
* `expiry` is `self.expiry_manager.active_expiry`.
* `fetch` is the outcome of the products request.
* `ticker` abstracts the per-symbol `/v2/tickers` request: `some (bid, ask)`
  when the ticker call returned status 200 with a non-empty `result`
  (with `float(quotes.get('best_bid', 0))` defaults already applied),
  `none` when the symbol is silently skipped.

Returns `(returned snapshot, new cache)`.  Control flow of the source: a
raised exception returns the cache; a non-200 status returns `{}` leaving
the cache alone; a 200 response rebuilds the snapshot from products whose
symbol contains both the asset and the active expiry and whose prices are
strictly positive and distinct, and overwrites the cache with it. -/
def fetch_live_market_data (too_soon : Bool) (cache : MarketSnapshot)
    (asset expiry : String) (fetch : ProductsFetch)
    (ticker : String → Option (ℚ × ℚ)) : MarketSnapshot × MarketSnapshot :=
  if too_soon then (cache, cache)
  else
    match fetch with
    | .exc => (cache, cache)
    | .resp status products =>
      if status = 200 then
        let market_data : MarketSnapshot := products.foldr
          (fun symbol acc =>
            if str_contains symbol asset && str_contains symbol expiry then
              match ticker symbol with
              | some (bid_price, ask_price) =>
                if 0 < bid_price ∧ 0 < ask_price ∧ bid_price ≠ ask_price then
                  (symbol, ⟨symbol, bid_price, ask_price, 50⟩) :: acc
                else acc
              | none => acc
            else acc) []
        (market_data, market_data)
      else ([], cache)

/-! ### Spread scanner (`UltraFastArbitrageEngine`) -/

/-- Per-asset configuration (`ETH_PARAMS` / `BTC_PARAMS`). -/
structure AssetParams where
  max_premium : ℚ
  min_profit : ℚ
  price_increment : ℚ
  deriving DecidableEq

/-- Default `ETH_PARAMS` values. -/
def ETH_PARAMS : AssetParams := ⟨3, 1/5, 1/10⟩

/-- Default `BTC_PARAMS` values. -/
def BTC_PARAMS : AssetParams := ⟨20, 3, 1⟩

/-- One entry of the `strikes` dict built by `group_options_by_strike`:
`{'call': {...}, 'put': {...}}` where either leg may be the empty dict
(embedded as `none`). -/
structure StrikeBucket where
  call : Option Quote
  put : Option Quote
  deriving DecidableEq

/-- Embedding of Python's `d.get('ask', 0)` on a possibly-empty leg dict. -/
def dictAsk (q : Option Quote) : ℚ := (q.map Quote.ask).getD 0

/-- Embedding of Python's `d.get('bid', 0)` on a possibly-empty leg dict. -/
def dictBid (q : Option Quote) : ℚ := (q.map Quote.bid).getD 0

/-- Embedding of Python's `d.get('qty', 100)` on a possibly-empty leg dict. -/
def dictQty (q : Option Quote) : Int := (q.map Quote.qty).getD 100

/-- Embedding of Python's `d['symbol']` on a leg dict.  Raises `KeyError`
on an empty dict in the source; it is only reached under a positivity guard
that forces the leg to be present, so the default is unreachable. -/
def dictSymbol (q : Option Quote) : String := (q.map Quote.symbol).getD ""

/-- The opportunity kind tag (`'CALL'` / `'PUT'`). -/
inductive LegType where
  | CALL
  | PUT
  deriving DecidableEq

/-- An opportunity dict as returned by `check_call_arbitrage` /
`check_put_arbitrage`. -/
structure Opportunity where
  type : LegType
  strike1 : Int
  strike2 : Int
  buy_premium : ℚ
  sell_premium : ℚ
  profit : ℚ
  buy_symbol : String
  sell_symbol : String
  buy_qty : Int
  sell_qty : Int
  deriving DecidableEq

/-- Embedding of `UltraFastArbitrageEngine.check_call_arbitrage`: buy the
call at `strike1`'s ask, sell the call at `strike2`'s bid; valid when both
prices are positive, both at most `max_premium`, and the margin is at least
`min_profit`. -/
def check_call_arbitrage (params : AssetParams) (strikes : Int → StrikeBucket)
    (strike1 strike2 : Int) : Option Opportunity :=
  let call1_ask := dictAsk (strikes strike1).call
  let call2_bid := dictBid (strikes strike2).call
  if 0 < call1_ask ∧ 0 < call2_bid ∧
      call1_ask ≤ params.max_premium ∧ call2_bid ≤ params.max_premium then
    let profit := call2_bid - call1_ask
    if params.min_profit ≤ profit then
      some { type := .CALL, strike1 := strike1, strike2 := strike2,
             buy_premium := call1_ask, sell_premium := call2_bid, profit := profit,
             buy_symbol := dictSymbol (strikes strike1).call,
             sell_symbol := dictSymbol (strikes strike2).call,
             buy_qty := dictQty (strikes strike1).call,
             sell_qty := dictQty (strikes strike2).call }
    else none
  else none

/-- Embedding of `UltraFastArbitrageEngine.check_put_arbitrage`: buy the put
at `strike2`'s ask, sell the put at `strike1`'s bid (mirrored direction). -/
def check_put_arbitrage (params : AssetParams) (strikes : Int → StrikeBucket)
    (strike1 strike2 : Int) : Option Opportunity :=
  let put1_bid := dictBid (strikes strike1).put
  let put2_ask := dictAsk (strikes strike2).put
  if 0 < put1_bid ∧ 0 < put2_ask ∧
      put1_bid ≤ params.max_premium ∧ put2_ask ≤ params.max_premium then
    let profit := put1_bid - put2_ask
    if params.min_profit ≤ profit then
      some { type := .PUT, strike1 := strike1, strike2 := strike2,
             buy_premium := put2_ask, sell_premium := put1_bid, profit := profit,
             buy_symbol := dictSymbol (strikes strike2).put,
             sell_symbol := dictSymbol (strikes strike1).put,
             buy_qty := dictQty (strikes strike2).put,
             sell_qty := dictQty (strikes strike1).put }
    else none
  else none

instance : DecidableRel (fun a b : Opportunity => b.profit ≤ a.profit) :=
  fun a b => inferInstanceAs (Decidable (b.profit ≤ a.profit))

/-- Embedding of `UltraFastArbitrageEngine.find_arbitrage_opportunities`.
The `strikes` dict built by `group_options_by_strike` is embedded as the
lookup function `strikes` together with its key list `strike_keys`
(distinct, in some order); `sorted(strikes.keys())` is a stable sort just
like Python's, adjacent sorted strikes are paired, each pair is tested for a
CALL and then a PUT opportunity, and the hits are sorted by descending
profit (stably, as in Python) and truncated to the top 3. -/
def find_arbitrage_opportunities (params : AssetParams) (strikes : Int → StrikeBucket)
    (strike_keys : List Int) : List Opportunity :=
  let sorted_strikes := List.insertionSort (· ≤ ·) strike_keys
  if sorted_strikes.length < 2 then []
  else
    let pairs := sorted_strikes.zip sorted_strikes.tail
    let opportunities := pairs.foldr
      (fun p acc =>
        (check_call_arbitrage params strikes p.1 p.2).toList ++
          (check_put_arbitrage params strikes p.1 p.2).toList ++ acc) []
    (List.insertionSort (fun a b => b.profit ≤ a.profit) opportunities).take 3

/-! ### Order execution (`UltraFastOrderExecutor`) -/

/-- Candidate filled quantities drawn by `random.choices` in the
paper-trading branch of `execute_sell_with_partial_fill`:
`[quantity, quantity-1, quantity-2, quantity-3, int(quantity*0.7)]`.
The float expression `int(quantity*0.7)` is embedded as the exact integer
quotient `7 * quantity / 10` (both truncate `0.7·quantity` for the
nonnegative quantities that reach this code). -/
def sell_fill_candidates (quantity : Int) : List Int :=
  [quantity, quantity - 1, quantity - 2, quantity - 3, 7 * quantity / 10]

/-- Embedding of the paper-trading branch of
`UltraFastOrderExecutor.execute_sell_with_partial_fill`: the random draw is
embedded as the drawn index `i`, and the result is clamped below by one
(`filled_qty = max(1, filled_qty)`). -/
def execute_sell_with_partial_fill (quantity : Int) (i : Fin 5) : Int :=
  max 1 ((sell_fill_candidates quantity).get
    ⟨i.val, by simp [sell_fill_candidates]⟩)

/-- The four simulated branches drawn by `random.choices` in the
paper-trading part of `execute_buy_sequence`. -/
inductive BuyScenario where
  | instant
  | adjustment
  | match_price
  | abandon
  deriving DecidableEq

/-- Embedding of the paper-trading branch of
`UltraFastOrderExecutor.execute_buy_sequence`.  Returns
`(success, final price, prices at which a buy was attempted)`:

* `instant`: filled at the original price;
* `adjustment`: price bumped once by `price_increment`, then filled;
* `match_price`: bumped by `price_increment`, then set to `sell_price`,
  then filled;
* `abandon`: same two escalations, never filled (`success = false`).

The attempted-price list records `current_price` at each `BUY` timeline
step, in order. -/
def execute_buy_sequence (original_price sell_price price_increment : ℚ) :
    BuyScenario → Bool × ℚ × List ℚ
  | .instant => (true, original_price, [original_price])
  | .adjustment =>
      (true, original_price + price_increment,
        [original_price, original_price + price_increment])
  | .match_price =>
      (true, sell_price,
        [original_price, original_price + price_increment, sell_price])
  | .abandon =>
      (false, sell_price,
        [original_price, original_price + price_increment, sell_price])

/-- The escalation tier prices attempted by `execute_buy_sequence`. -/
def buy_attempt_prices (original_price sell_price price_increment : ℚ)
    (s : BuyScenario) : List ℚ :=
  (execute_buy_sequence original_price sell_price price_increment s).2.2

/-- Terminal outcome of `execute_arbitrage_trade`. -/
inductive TradeOutcome where
  | rejected
  | sellTimeout
  | completed (buy_success : Bool)
  deriving DecidableEq

/-- What `execute_arbitrage_trade` did: the quantity passed to
`execute_buy_sequence` (if the buy leg was invoked at all) and the terminal
outcome. -/
structure TradeLog where
  buyCall : Option Int
  outcome : TradeOutcome
  deriving DecidableEq

/-- Embedding of `UltraFastOrderExecutor.execute_arbitrage_trade`.
`sellFill` abstracts `execute_sell_with_partial_fill` (quantity requested ↦
quantity filled) and `buyResult` abstracts the success flag of
`execute_buy_sequence`.  Control flow of the source:
`trade_qty = min(buy_qty, sell_qty, MAX_LOTS_PER_TRADE)`; reject when below
one lot; abort with a sell-timeout alert when the sell leg fills less than
one lot; otherwise run the buy sequence for exactly the filled quantity. -/
def execute_arbitrage_trade (buy_qty sell_qty max_lots : Int)
    (sellFill : Int → Int) (buyResult : Int → Bool) : TradeLog :=
  let trade_qty := min (min buy_qty sell_qty) max_lots
  if trade_qty < 1 then ⟨none, .rejected⟩
  else
    let filled_qty := sellFill trade_qty
    if filled_qty < 1 then ⟨none, .sellTimeout⟩
    else ⟨some filled_qty, .completed (buyResult filled_qty)⟩

/-! ### Concrete example data (the spec's worked scenario) -/

/-- Example strike buckets: calls at strikes 100 (bid 1.40 / ask 1.50) and
105 (bid 2.00 / ask 2.10), no puts. -/
def demo_strikes : Int → StrikeBucket := fun s =>
  if s = 100 then ⟨some ⟨"C-X-100-310125", 7/5, 3/2, 50⟩, none⟩
  else if s = 105 then ⟨some ⟨"C-X-105-310125", 2, 21/10, 50⟩, none⟩
  else ⟨none, none⟩

/-- The single CALL opportunity the scanner finds on `demo_strikes` with the
default ETH parameters: buy at 1.50, sell at 2.00, profit 0.50. -/
def demo_opp : Opportunity :=
  ⟨.CALL, 100, 105, 3/2, 2, 1/2, "C-X-100-310125", "C-X-105-310125", 50, 50⟩

/-! ### Theorems about the trade coordinator -/

/-- C1: whenever the computed trade quantity is at least one lot (so the
sell leg runs) and the sell leg reports a filled quantity of at least 1,
`execute_arbitrage_trade` invokes the buy leg with quantity exactly equal
to the sell leg's filled quantity, never the originally requested
quantity. -/
theorem buy_leg_sized_to_sell_fill (buy_qty sell_qty max_lots : Int)
    (sellFill : Int → Int) (buyResult : Int → Bool)
    (hq : 1 ≤ min (min buy_qty sell_qty) max_lots)
    (hfill : 1 ≤ sellFill (min (min buy_qty sell_qty) max_lots)) :
    (execute_arbitrage_trade buy_qty sell_qty max_lots sellFill buyResult).buyCall =
      some (sellFill (min (min buy_qty sell_qty) max_lots)) := by
  unfold execute_arbitrage_trade
  simp [not_lt.mpr hq, not_lt.mpr hfill]

/-- Witness for `buy_leg_sized_to_sell_fill`: a sell request capped at 10
lots that fills 7 yields a buy-leg invocation for exactly 7 lots. -/
theorem buy_leg_sized_to_sell_fill_witness :
    (execute_arbitrage_trade 50 50 10 (fun _ => 7) (fun _ => true)).buyCall = some 7 :=
  buy_leg_sized_to_sell_fill 50 50 10 (fun _ => 7) (fun _ => true) (by decide) (by decide)

/-- C5: when the sell leg returns filled quantity 0, the coordinator stops
with a sell-timeout outcome and performs no buy-leg call at all. -/
theorem sell_timeout_no_buy_leg (buy_qty sell_qty max_lots : Int)
    (sellFill : Int → Int) (buyResult : Int → Bool)
    (hq : 1 ≤ min (min buy_qty sell_qty) max_lots)
    (hfill : sellFill (min (min buy_qty sell_qty) max_lots) = 0) :
    (execute_arbitrage_trade buy_qty sell_qty max_lots sellFill buyResult).outcome =
        .sellTimeout ∧
      (execute_arbitrage_trade buy_qty sell_qty max_lots sellFill buyResult).buyCall =
        none := by
  unfold execute_arbitrage_trade
  simp [not_lt.mpr hq, hfill]

/-- Witness for `sell_timeout_no_buy_leg` at a concrete unfilled sell. -/
theorem sell_timeout_no_buy_leg_witness :
    (execute_arbitrage_trade 50 50 10 (fun _ => 0) (fun _ => true)).outcome =
        .sellTimeout ∧
      (execute_arbitrage_trade 50 50 10 (fun _ => 0) (fun _ => true)).buyCall = none :=
  sell_timeout_no_buy_leg 50 50 10 (fun _ => 0) (fun _ => true) (by decide) rfl

/-- C9: in paper-trading mode every simulated sell draw is clamped with
`max(1, ·)`, so for a requested quantity of at least one lot the filled
quantity lies in `[1, quantity]`; consequently the `filled_qty == 0`
sell-timeout branch of `execute_arbitrage_trade` is unreachable in paper
mode, whatever the draw. -/
theorem paper_sell_fill_bounds (quantity : Int) (i : Fin 5) (hq : 1 ≤ quantity) :
    (1 ≤ execute_sell_with_partial_fill quantity i ∧
      execute_sell_with_partial_fill quantity i ≤ quantity) ∧
    ∀ (buy_qty sell_qty max_lots : Int) (buyResult : Int → Bool),
      (execute_arbitrage_trade buy_qty sell_qty max_lots
          (fun q => execute_sell_with_partial_fill q i) buyResult).outcome ≠
        .sellTimeout := by
  constructor
  · fin_cases i <;>
      simp only [execute_sell_with_partial_fill, sell_fill_candidates, List.get] <;>
      constructor <;> omega
  · intro buy_qty sell_qty max_lots buyResult
    unfold execute_arbitrage_trade
    by_cases hlt : min (min buy_qty sell_qty) max_lots < 1
    · simp [hlt]
    · have h1 : 1 ≤ execute_sell_with_partial_fill (min (min buy_qty sell_qty) max_lots) i :=
        le_max_left 1 _
      simp [hlt, not_lt.mpr h1]

/-- Witness for `paper_sell_fill_bounds`: the draw `int(quantity*0.7)` on a
10-lot request fills 7, and a coordinator driven by the paper simulator
never reports a sell timeout. -/
theorem paper_sell_fill_bounds_witness :
    (1 ≤ execute_sell_with_partial_fill 10 (4 : Fin 5) ∧
      execute_sell_with_partial_fill 10 (4 : Fin 5) ≤ 10) ∧
    (execute_arbitrage_trade 50 50 10
        (fun q => execute_sell_with_partial_fill q (4 : Fin 5)) (fun _ => true)).outcome ≠
      .sellTimeout :=
  ⟨(paper_sell_fill_bounds 10 (4 : Fin 5) (by decide)).1,
   (paper_sell_fill_bounds 10 (4 : Fin 5) (by decide)).2 50 50 10 (fun _ => true)⟩

/-! ### Theorems about the buy-leg price escalation -/

/-- C2, counterexample: with original ask 1, sell price 2 and configured
`priceIncrement` 5, the attempted tier prices are `[1, 6, 2]` — neither
monotonically non-decreasing nor bounded by the sell price, refuting the
claim as stated for arbitrary configured increments. -/
theorem buy_escalation_not_monotone_cex :
    ¬ (List.Chain' (· ≤ ·) (buy_attempt_prices 1 2 5 .match_price) ∧
        ∀ p ∈ buy_attempt_prices 1 2 5 .match_price, p ≤ 2) := by
  intro h
  have h6 := h.2 (1 + 5) (by simp [buy_attempt_prices, execute_buy_sequence])
  norm_num at h6

/-- C2, amended: provided the configured `priceIncrement` is nonnegative
and does not push the escalated price past the opportunity's sell price
(`original + increment ≤ sellPrice`, as with the default configurations
where the increment is below the minimum profit), the prices attempted by
`execute_buy_sequence` are monotonically non-decreasing across tiers and
never exceed the sell price, in every simulated scenario. -/
theorem buy_escalation_monotone_of_increment_le_margin
    (original_price sell_price price_increment : ℚ) (s : BuyScenario)
    (hinc : 0 ≤ price_increment)
    (hmargin : original_price + price_increment ≤ sell_price) :
    List.Chain' (· ≤ ·) (buy_attempt_prices original_price sell_price price_increment s) ∧
      ∀ p ∈ buy_attempt_prices original_price sell_price price_increment s,
        p ≤ sell_price := by
  have h0 : original_price ≤ original_price + price_increment := by linarith
  have h1 : original_price ≤ sell_price := by linarith
  cases s <;>
    simp [buy_attempt_prices, execute_buy_sequence, h0, h1, hmargin]

/-- Witness for `buy_escalation_monotone_of_increment_le_margin` at ask 1,
sell price 2, increment 1/2, in the deepest escalation scenario. -/
theorem buy_escalation_monotone_witness :
    List.Chain' (· ≤ ·) (buy_attempt_prices 1 2 (1/2) .match_price) ∧
      ∀ p ∈ buy_attempt_prices 1 2 (1/2) .match_price, p ≤ 2 :=
  buy_escalation_monotone_of_increment_le_margin 1 2 (1/2) .match_price
    (by norm_num) (by norm_num)

/-! ### Theorems about expiry timing and the quote refresh -/

/-- C3: the source tests `ist_now.hour >= 17 and ist_now.minute >= 30`,
which is not "at or after 17:30": at 18:00 IST (which is 30 minutes past
17:30) the minute test fails, so `get_initial_active_expiry` still returns
today's code and `should_rollover_expiry` reports no rollover — contrary to
the claim (and to the code's own "After 5:30 PM" log message).  The 17:31
scenario and its switch target `020225` do behave as claimed. -/
theorem rollover_condition_misses_after_half_hour :
    17 * 60 + 30 ≤ 18 * 60 + 0 ∧
    get_initial_active_expiry 18 0 "010225" "020225" = "010225" ∧
    should_rollover_expiry 18 0 "020225" = none ∧
    should_rollover_expiry 17 31 "020225" = some "020225" ∧
    get_next_available_expiry "010225" ["010225", "020225"] = "020225" := by
  have h1 : ¬ ("010225" : String) < "010225" := by rw [String.lt_iff_toList_lt]; decide
  have h2 : ("010225" : String) < "020225" := by rw [String.lt_iff_toList_lt]; decide
  refine ⟨by norm_num, by decide, by decide, by decide, ?_⟩
  simp [get_next_available_expiry, List.find?, h1, h2]

/-- C4, counterexample: on an HTTP 500 response — a failing fetch — the
refresh returns the empty mapping rather than the non-empty cached
snapshot, refuting the claim as stated. -/
theorem fetch_non200_returns_empty_cex :
    (fetch_live_market_data false [("C-ETH-3000-010225", ⟨"C-ETH-3000-010225", 1, 2, 50⟩)]
        "ETH" "010225" (.resp 500 []) (fun _ => none)).1 = ([] : MarketSnapshot) ∧
    ([("C-ETH-3000-010225", (⟨"C-ETH-3000-010225", 1, 2, 50⟩ : Quote))] : MarketSnapshot) ≠
      ([] : MarketSnapshot) := by
  exact ⟨rfl, by simp⟩

/-- C4, amended: only when the fetch raises an exception (transport failure
or unparseable payload, caught by the `try`/`except`) does the refresh
return the previous cached snapshot for the asset unmodified — the cache is
also kept as-is; an HTTP non-200 response instead yields an empty mapping
(with the cache itself left unchanged). -/
theorem fetch_exception_returns_cache (too_soon : Bool) (cache : MarketSnapshot)
    (asset expiry : String) (ticker : String → Option (ℚ × ℚ)) :
    fetch_live_market_data too_soon cache asset expiry .exc ticker = (cache, cache) ∧
    (fetch_live_market_data too_soon cache asset expiry (.resp 500 []) ticker).2 = cache := by
  cases too_soon <;> exact ⟨rfl, rfl⟩

/-- C10: `get_next_available_expiry` compares `DDMMYY` codes as plain
strings; with current code `310125` both `010225` and `020225` are
lexicographically smaller, so the "none greater" fallback returns the
lexicographically largest code `020225` — not the chronologically next
`010225`. -/
theorem next_expiry_lexicographic_scenario :
    get_next_available_expiry "310125" ["010225", "020225"] = "020225" ∧
    ("010225" : String) < "310125" ∧ ("020225" : String) < "310125" := by
  have h1 : ¬ ("310125" : String) < "010225" := by rw [String.lt_iff_toList_lt]; decide
  have h2 : ¬ ("310125" : String) < "020225" := by rw [String.lt_iff_toList_lt]; decide
  refine ⟨?_, ?_, ?_⟩
  · simp [get_next_available_expiry, List.find?, h1, h2]
  · rw [String.lt_iff_toList_lt]; decide
  · rw [String.lt_iff_toList_lt]; decide

/-! ### Theorems about the expiry oracle -/

/-- On a `≤`-sorted list, `find?` with predicate `current < ·` returns a
least element among those strictly above `current`. -/
theorem sorted_find?_is_least {c : String} :
    ∀ {l : List String}, l.Sorted (· ≤ ·) →
      ∀ {e : String}, l.find? (fun x => decide (c < x)) = some e →
        ∀ y ∈ l, c < y → e ≤ y := by
  intro l
  induction l with
  | nil => intro _ e h; simp at h
  | cons a t ih =>
    intro hs e hfind y hy hcy
    by_cases hca : c < a
    · rw [List.find?_cons_of_pos _ (by simpa using hca)] at hfind
      obtain rfl : a = e := Option.some.inj hfind
      rcases List.mem_cons.mp hy with rfl | hyt
      · exact le_refl _
      · exact List.rel_of_sorted_cons hs _ hyt
    · rw [List.find?_cons_of_neg _ (by simpa using hca)] at hfind
      rcases List.mem_cons.mp hy with rfl | hyt
      · exact absurd hcy hca
      · exact ih hs.of_cons hfind y hyt hcy

/-- Every element of a `≤`-sorted list is bounded by its `getLastD`. -/
theorem sorted_le_getLastD :
    ∀ {l : List String}, l.Sorted (· ≤ ·) → ∀ {y}, y ∈ l → ∀ d, y ≤ l.getLastD d := by
  intro l
  induction l with
  | nil => intro _ y hy; simp at hy
  | cons a t ih =>
    intro hs y hy d
    rw [List.getLastD_cons]
    rcases List.mem_cons.mp hy with rfl | hyt
    · cases t with
      | nil => exact le_refl _
      | cons b t2 =>
        have hab : y ≤ b := List.rel_of_sorted_cons hs b (by simp)
        exact le_trans hab (ih hs.of_cons (show b ∈ b :: t2 by simp) y)
    · exact ih hs.of_cons hyt a

/-- The `getLastD` of a nonempty list is one of its elements. -/
theorem getLastD_mem {l : List String} (h : l ≠ []) (d : String) : l.getLastD d ∈ l := by
  rw [List.getLastD_eq_getLast?, List.getLast?_eq_getLast l h, Option.getD_some]
  exact List.getLast_mem h

/-- C7: on the sorted, duplicate-free list that `get_available_expiries`
produces, `get_next_available_expiry` returns the smallest available code
strictly greater than the current one; if none is greater it returns the
largest available code; an empty list returns the current code unchanged;
and two calls on the same inputs agree. -/
theorem get_next_available_expiry_spec (current : String) (available : List String)
    (hs : available.Sorted (· ≤ ·)) :
    (available = [] → get_next_available_expiry current available = current) ∧
    ((∃ e ∈ available, current < e) →
      get_next_available_expiry current available ∈ available ∧
      current < get_next_available_expiry current available ∧
      ∀ e ∈ available, current < e → get_next_available_expiry current available ≤ e) ∧
    (available ≠ [] → (∀ e ∈ available, ¬ current < e) →
      get_next_available_expiry current available ∈ available ∧
      ∀ e ∈ available, e ≤ get_next_available_expiry current available) ∧
    get_next_available_expiry current available = get_next_available_expiry current available := by
  refine ⟨?_, ?_, ?_, rfl⟩
  · rintro rfl; rfl
  · rintro ⟨e0, he0, hce0⟩
    have hne : available ≠ [] := by rintro rfl; simp at he0
    cases hfind : available.find? (fun x => decide (current < x)) with
    | none =>
      exfalso
      have hnone := List.find?_eq_none.mp hfind e0 he0
      simp only [decide_eq_true_eq] at hnone
      exact hnone hce0
    | some e =>
      have hval : get_next_available_expiry current available = e := by
        unfold get_next_available_expiry
        rw [if_neg (by simpa [List.isEmpty_iff] using hne), hfind]
      rw [hval]
      refine ⟨List.mem_of_find?_eq_some hfind, ?_, ?_⟩
      · have := List.find?_some hfind
        simpa using this
      · exact fun y hy hcy => sorted_find?_is_least hs hfind y hy hcy
  · intro hne hall
    cases hfind : available.find? (fun x => decide (current < x)) with
    | some e =>
      exfalso
      have hmem := List.mem_of_find?_eq_some hfind
      have hlt : current < e := by simpa using List.find?_some hfind
      exact hall e hmem hlt
    | none =>
      have hval : get_next_available_expiry current available =
          available.getLastD current := by
        unfold get_next_available_expiry
        rw [if_neg (by simpa [List.isEmpty_iff] using hne), hfind]
      rw [hval]
      exact ⟨getLastD_mem hne current, fun y hy => sorted_le_getLastD hs hy current⟩

/-- Witness for `get_next_available_expiry_spec`: with current code
`010125` and sorted available codes `[010225, 020225]`, the result is an
available code strictly above the current one. -/
theorem get_next_available_expiry_spec_witness :
    get_next_available_expiry "010125" ["010225", "020225"] ∈
        (["010225", "020225"] : List String) ∧
      ("010125" : String) < get_next_available_expiry "010125" ["010225", "020225"] := by
  have hle : ("010225" : String) ≤ "020225" := by
    rw [String.le_iff_toList_le]; decide
  have hs : (["010225", "020225"] : List String).Sorted (· ≤ ·) := by
    refine List.sorted_cons.mpr ⟨?_, List.sorted_singleton _⟩
    intro b hb
    rw [List.mem_singleton.mp hb]
    exact hle
  have hlt : ("010125" : String) < "010225" := by
    rw [String.lt_iff_toList_lt]; decide
  have h := (get_next_available_expiry_spec "010125" ["010225", "020225"] hs).2.1
    ⟨"010225", by simp, hlt⟩
  exact ⟨h.1, h.2.1⟩

/-! ### Theorems about the spread scanner -/

/-- Membership in the per-pair foldr of the scanner decomposes into
membership in one pair's candidate lists. -/
theorem mem_scan_foldr {β : Type} (f g : Int × Int → List β) :
    ∀ (l : List (Int × Int)) (b : β),
      b ∈ l.foldr (fun p acc => f p ++ g p ++ acc) [] → ∃ p ∈ l, b ∈ f p ∨ b ∈ g p := by
  intro l
  induction l with
  | nil => intro b hb; simp at hb
  | cons a t ih =>
    intro b hb
    simp only [List.foldr_cons, List.mem_append] at hb
    rcases hb with (hf | hg) | ht
    · exact ⟨a, by simp, Or.inl hf⟩
    · exact ⟨a, by simp, Or.inr hg⟩
    · obtain ⟨p, hp, hfg⟩ := ih b ht
      exact ⟨p, by simp [hp], hfg⟩

/-- Unfolding a successful `check_call_arbitrage`: the returned opportunity
is the CALL spread on the given strikes and satisfies all the guards. -/
theorem check_call_arbitrage_some {params : AssetParams} {strikes : Int → StrikeBucket}
    {s1 s2 : Int} {opp : Opportunity}
    (h : check_call_arbitrage params strikes s1 s2 = some opp) :
    opp.type = .CALL ∧ opp.strike1 = s1 ∧ opp.strike2 = s2 ∧
      opp.buy_premium = dictAsk (strikes s1).call ∧
      opp.sell_premium = dictBid (strikes s2).call ∧
      0 < opp.buy_premium ∧ 0 < opp.sell_premium ∧
      opp.buy_premium ≤ params.max_premium ∧ opp.sell_premium ≤ params.max_premium ∧
      params.min_profit ≤ opp.sell_premium - opp.buy_premium := by
  simp only [check_call_arbitrage] at h
  split_ifs at h with h1 h2
  · obtain ⟨ha, hb, hc, hd⟩ := h1
    cases h
    exact ⟨rfl, rfl, rfl, rfl, rfl, ha, hb, hc, hd, h2⟩

/-- Unfolding a successful `check_put_arbitrage`: the returned opportunity
is the PUT spread on the given strikes (buy at the upper strike's ask, sell
at the lower strike's bid) and satisfies all the guards. -/
theorem check_put_arbitrage_some {params : AssetParams} {strikes : Int → StrikeBucket}
    {s1 s2 : Int} {opp : Opportunity}
    (h : check_put_arbitrage params strikes s1 s2 = some opp) :
    opp.type = .PUT ∧ opp.strike1 = s1 ∧ opp.strike2 = s2 ∧
      opp.buy_premium = dictAsk (strikes s2).put ∧
      opp.sell_premium = dictBid (strikes s1).put ∧
      0 < opp.buy_premium ∧ 0 < opp.sell_premium ∧
      opp.buy_premium ≤ params.max_premium ∧ opp.sell_premium ≤ params.max_premium ∧
      params.min_profit ≤ opp.sell_premium - opp.buy_premium := by
  simp only [check_put_arbitrage] at h
  split_ifs at h with h1 h2
  · obtain ⟨ha, hb, hc, hd⟩ := h1
    cases h
    exact ⟨rfl, rfl, rfl, rfl, rfl, hb, ha, hd, hc, h2⟩

/-- Every opportunity the scanner returns comes from a successful CALL or
PUT check on some adjacent pair of sorted strikes. -/
theorem mem_find_arbitrage {params : AssetParams} {strikes : Int → StrikeBucket}
    {strike_keys : List Int} {opp : Opportunity}
    (h : opp ∈ find_arbitrage_opportunities params strikes strike_keys) :
    ∃ p ∈ (List.insertionSort (· ≤ ·) strike_keys).zip
        (List.insertionSort (· ≤ ·) strike_keys).tail,
      check_call_arbitrage params strikes p.1 p.2 = some opp ∨
        check_put_arbitrage params strikes p.1 p.2 = some opp := by
  simp only [find_arbitrage_opportunities] at h
  split_ifs at h with hlen
  · simp at h
  · have h2 := List.take_subset 3 _ h
    have h3 := (List.perm_insertionSort _ _).mem_iff.mp h2
    obtain ⟨p, hp, hcp⟩ := mem_scan_foldr _ _ _ _ h3
    refine ⟨p, hp, ?_⟩
    rcases hcp with hc | hc
    · exact Or.inl (by simpa using hc)
    · exact Or.inr (by simpa using hc)

/-- C6: every opportunity returned by the scan has strictly positive buy
and sell prices, both bounded by `max_premium`, and a margin of at least
`min_profit`. -/
theorem scan_opportunity_bounds (params : AssetParams) (strikes : Int → StrikeBucket)
    (strike_keys : List Int) (opp : Opportunity)
    (h : opp ∈ find_arbitrage_opportunities params strikes strike_keys) :
    0 < opp.buy_premium ∧ 0 < opp.sell_premium ∧
      opp.buy_premium ≤ params.max_premium ∧ opp.sell_premium ≤ params.max_premium ∧
      params.min_profit ≤ opp.sell_premium - opp.buy_premium := by
  obtain ⟨p, _, hcp⟩ := mem_find_arbitrage h
  rcases hcp with hc | hc
  · obtain ⟨_, _, _, _, _, h6, h7, h8, h9, h10⟩ := check_call_arbitrage_some hc
    exact ⟨h6, h7, h8, h9, h10⟩
  · obtain ⟨_, _, _, _, _, h6, h7, h8, h9, h10⟩ := check_put_arbitrage_some hc
    exact ⟨h6, h7, h8, h9, h10⟩

/-- The scanner on the spec's worked example: exactly one CALL opportunity,
buy 1.50, sell 2.00, profit 0.50. -/
theorem demo_scan_eval :
    find_arbitrage_opportunities ETH_PARAMS demo_strikes [100, 105] = [demo_opp] := by
  norm_num [find_arbitrage_opportunities, List.insertionSort, List.orderedInsert,
    check_call_arbitrage, check_put_arbitrage, demo_strikes, demo_opp, ETH_PARAMS,
    dictAsk, dictBid, dictQty, dictSymbol]

/-- Witness for `scan_opportunity_bounds` on the worked example. -/
theorem scan_opportunity_bounds_witness :
    0 < demo_opp.buy_premium ∧ 0 < demo_opp.sell_premium ∧
      demo_opp.buy_premium ≤ ETH_PARAMS.max_premium ∧
      demo_opp.sell_premium ≤ ETH_PARAMS.max_premium ∧
      ETH_PARAMS.min_profit ≤ demo_opp.sell_premium - demo_opp.buy_premium :=
  scan_opportunity_bounds ETH_PARAMS demo_strikes [100, 105] demo_opp
    (by rw [demo_scan_eval]; exact List.mem_singleton_self _)

/-- Adjacent pairs drawn from a strictly sorted list are strictly
increasing. -/
theorem zip_tail_lt {l : List Int} (h : l.Sorted (· < ·)) :
    ∀ p ∈ l.zip l.tail, p.1 < p.2 := by
  induction l with
  | nil => simp
  | cons a t ih =>
    cases t with
    | nil => simp
    | cons b t2 =>
      intro p hp
      simp only [List.tail_cons, List.zip_cons_cons, List.mem_cons] at hp
      rcases hp with rfl | hp
      · exact List.rel_of_sorted_cons h b (by simp)
      · exact ih h.of_cons p hp

/-- C8: every opportunity returned by the scan pairs a lower strike with a
strictly greater upper strike; a CALL opportunity buys at the lower
strike's call ask and sells at the upper strike's call bid, and a PUT
opportunity buys at the upper strike's put ask and sells at the lower
strike's put bid. -/
theorem scan_opportunity_leg_directions (params : AssetParams)
    (strikes : Int → StrikeBucket) (strike_keys : List Int) (opp : Opportunity)
    (hnd : strike_keys.Nodup)
    (h : opp ∈ find_arbitrage_opportunities params strikes strike_keys) :
    opp.strike1 < opp.strike2 ∧
      (opp.type = .CALL →
        opp.buy_premium = dictAsk (strikes opp.strike1).call ∧
        opp.sell_premium = dictBid (strikes opp.strike2).call) ∧
      (opp.type = .PUT →
        opp.buy_premium = dictAsk (strikes opp.strike2).put ∧
        opp.sell_premium = dictBid (strikes opp.strike1).put) := by
  obtain ⟨p, hp, hcp⟩ := mem_find_arbitrage h
  have hsorted : (List.insertionSort (· ≤ ·) strike_keys).Sorted (· ≤ ·) :=
    List.sorted_insertionSort _ _
  have hnd2 : (List.insertionSort (· ≤ ·) strike_keys).Nodup :=
    (List.perm_insertionSort _ _).nodup_iff.mpr hnd
  have hlt : p.1 < p.2 := zip_tail_lt (hsorted.lt_of_le hnd2) p hp
  rcases hcp with hc | hc
  · obtain ⟨ht, h2, h3, h4, h5, _⟩ := check_call_arbitrage_some hc
    refine ⟨by rw [h2, h3]; exact hlt, ?_, ?_⟩
    · intro _
      exact ⟨by rw [h2]; exact h4, by rw [h3]; exact h5⟩
    · intro hput
      rw [ht] at hput
      exact absurd hput (by simp)
  · obtain ⟨ht, h2, h3, h4, h5, _⟩ := check_put_arbitrage_some hc
    refine ⟨by rw [h2, h3]; exact hlt, ?_, ?_⟩
    · intro hcall
      rw [ht] at hcall
      exact absurd hcall (by simp)
    · intro _
      exact ⟨by rw [h3]; exact h4, by rw [h2]; exact h5⟩

/-- Witness for `scan_opportunity_leg_directions` on the worked example. -/
theorem scan_opportunity_leg_directions_witness :
    demo_opp.strike1 < demo_opp.strike2 ∧
      (demo_opp.type = .CALL →
        demo_opp.buy_premium = dictAsk (demo_strikes demo_opp.strike1).call ∧
        demo_opp.sell_premium = dictBid (demo_strikes demo_opp.strike2).call) ∧
      (demo_opp.type = .PUT →
        demo_opp.buy_premium = dictAsk (demo_strikes demo_opp.strike2).put ∧
        demo_opp.sell_premium = dictBid (demo_strikes demo_opp.strike1).put) :=
  scan_opportunity_leg_directions ETH_PARAMS demo_strikes [100, 105] demo_opp
    (by decide) (by rw [demo_scan_eval]; exact List.mem_singleton_self _)
